import Mathlib

/-!
Shallow embedding of `src/githubapi.py` (class `GitHubAPI`), the single
source file of this repository: per-metric fetch/flatten/aggregate
pipelines over the GitHub REST and GraphQL APIs.

Remote HTTP responses are modelled as explicit function parameters
(`String → …` keyed by URL, or `Nat → …` keyed by request index for the
fixed-endpoint paginating fetchers), and each fetcher additionally
returns the trace of requests it issued, so that request counts and
request contents are provable.  Unbounded `while` loops are embedded
with an explicit fuel parameter; theorems supply enough fuel for the
terminating scenarios they describe.  Python runtime faults
(NameError, IndexError, AttributeError) are embedded as `Except`
errors.  Floating-point percentage arithmetic is embedded over `ℚ`;
every comparison the theorems rely on is far from any rounding
boundary, so the rational model agrees with the float program there.
-/

set_option autoImplicit false

deriving instance DecidableEq for Except

/-- Runtime faults of the Python source, as an explicit error type.
`insufficientData` is the explicit empty-input error that the spec
demands for bus-factor; the source never produces it. -/
inductive PyError where
  | nameError (n : String)
  | indexError
  | attrError
  | insufficientData
  | outOfFuel
  deriving DecidableEq

/-- A parsed timestamp: calendar day plus time-of-day (seconds within
the day), the information `pd.to_datetime` keeps that matters to the
grouping code.  `dtNormalize` truncates to midnight. -/
structure PyTimestamp where
  day : Int
  tod : Nat
  deriving DecidableEq

/-- Embeds `pd.Series.dt.normalize()`: truncate time-of-day to midnight. -/
def dtNormalize (t : PyTimestamp) : PyTimestamp := ⟨t.day, 0⟩

/-- Boolean chronological order on timestamps (day, then time-of-day). -/
def tsLeB (a b : PyTimestamp) : Bool :=
  if a.day < b.day then true
  else if b.day < a.day then false
  else a.tod ≤ b.tod

/-- Distinct elements of a list (each element once; order irrelevant to
its uses here, every use sorts the result afterwards as pandas
`groupby` sorts its group keys). -/
def uniq {α : Type} [DecidableEq α] : List α → List α
  | [] => []
  | a :: l => if a ∈ l then uniq l else a :: uniq l

/-- Number of occurrences of `k` in `l`. -/
def countEq {α : Type} [DecidableEq α] (k : α) (l : List α) : Nat :=
  (l.filter (fun y => decide (y = k))).length

/-- Insert into a list sorted by the Boolean order `le`. -/
def insertLe {α : Type} (le : α → α → Bool) (a : α) : List α → List α
  | [] => [a]
  | b :: l => if le a b then a :: b :: l else b :: insertLe le a l

/-- Insertion sort by the Boolean order `le` (embeds pandas sorting;
stability is irrelevant to every use, which only inspects values). -/
def isort {α : Type} (le : α → α → Bool) : List α → List α
  | [] => []
  | a :: l => insertLe le a (isort le l)

/-- Embeds the shared aggregation of `closed_issues` (lines 53-55),
`code_commits` (lines 84-85) and `open_issues` (lines 152-153):
normalize each timestamp to day granularity, then
`groupby('created_at').size()` — one row per distinct normalized date
(sorted, as pandas sorts group keys) with its occurrence count. -/
def dailyCounts (ts : List PyTimestamp) : List (PyTimestamp × Nat) :=
  let ks := ts.map dtNormalize
  (isort tsLeB (uniq ks)).map (fun k => (k, countEq k ks))

/-- URL built at line 49 of the source. -/
def closedIssuesUrl (owner repo : String) : String :=
  "https://api.github.com/repos/" ++ owner ++ "/" ++ repo ++ "/issues?state=closed"

/-- Embeds `GitHubAPI.closed_issues` (lines 39-57): one GET to the
closed-issues URL, project `created_at`, normalize, group per day.
`resp` models the remote: the parsed `created_at` column of the JSON
body returned for a URL.  Returns (requested URLs, result table). -/
def closed_issues (resp : String → List PyTimestamp) (owner repo : String) :
    List String × List (PyTimestamp × Nat) :=
  ([closedIssuesUrl owner repo], dailyCounts (resp (closedIssuesUrl owner repo)))

/-- One contributor record as projected at line 101 of the source. -/
structure RawContributor where
  login : String
  contributions : Nat
  deriving DecidableEq

/-- URL built at line 98 of the source. -/
def contributorsUrl (owner repo : String) : String :=
  "https://api.github.com/repos/" ++ owner ++ "/" ++ repo ++ "/contributors"

/-- Embeds `GitHubAPI.contributors` (lines 89-103): one GET, fixed
column projection `['login', 'contributions']`, no aggregation. -/
def contributors (resp : String → List RawContributor) (owner repo : String) :
    List String × List (String × Nat) :=
  ([contributorsUrl owner repo],
    (resp (contributorsUrl owner repo)).map (fun c => (c.login, c.contributions)))

/-- Embeds the offset-pagination `while True` loop of
`GitHubAPI.code_commits` (lines 68-79): request page `i` (starting from
the given index), stop as soon as a page is empty, otherwise append its
records and move to page `i+1`.  `pages` models the remote (the parsed
JSON array for each page number).  Returns the trace of requested page
numbers and, when the fuel sufficed, the concatenated records;
fuel exhaustion (the source loops forever against a remote that never
sends an empty page) yields `none`. -/
def ccLoop {α : Type} (pages : Nat → List α) : Nat → Nat → List Nat × Option (List α)
  | 0, _ => ([], none)
  | fuel + 1, i =>
    let j := pages i
    if j.isEmpty then ([i], some [])
    else
      let r := ccLoop pages fuel (i + 1)
      (i :: r.1, r.2.map (j ++ ·))

/-- The offset-paginated fetcher of `code_commits`, started at page 0
with accumulator `json = []` as at lines 68-70. -/
def code_commits_fetch {α : Type} (pages : Nat → List α) (fuel : Nat) :
    List Nat × Option (List α) :=
  ccLoop pages fuel 0

/-- Embeds `GitHubAPI.code_commits` (lines 59-87): offset-paginated
fetch, project each commit to `commit.author.date` (here `pages`
already yields those parsed dates), normalize, group per day. -/
def code_commits (pages : Nat → List PyTimestamp) (fuel : Nat) :
    List Nat × Option (List (PyTimestamp × Nat)) :=
  let r := code_commits_fetch pages fuel
  (r.1, r.2.map dailyCounts)

/-- URL built at line 139 of the source. -/
def openIssuesUrl (owner repo : String) : String :=
  "https://api.github.com/repos/" ++ owner ++ "/" ++ repo ++ "/issues?state=all"

/-- Embeds the link-header pagination loop of `GitHubAPI.open_issues`
(lines 142-149): GET the current URL, append its items, stop if the
response's link metadata has no `next` relation, otherwise continue
with the URL that relation supplies.  `resp` models the remote: for a
URL, the parsed items together with the optional `next` link URL.
Returns the trace of requested URLs and the concatenated items. -/
def linkLoop {α : Type} (resp : String → List α × Option String) :
    Nat → String → List String × Option (List α)
  | 0, _ => ([], none)
  | fuel + 1, url =>
    let p := resp url
    match p.2 with
    | none => ([url], some p.1)
    | some nxt =>
      let r := linkLoop resp fuel nxt
      (url :: r.1, r.2.map (p.1 ++ ·))

/-- Embeds `GitHubAPI.open_issues` (lines 129-155): link-header
paginated fetch of all issues starting at the state=all URL, project
`created_at` (here `resp` already yields parsed timestamps),
normalize, group per day. -/
def open_issues (resp : String → List PyTimestamp × Option String)
    (owner repo : String) (fuel : Nat) :
    List String × Option (List (PyTimestamp × Nat)) :=
  let r := linkLoop resp fuel (openIssuesUrl owner repo)
  (r.1, r.2.map dailyCounts)

/-- One output row of `lines_of_code_changed`: the DataFrame columns
after lines 119-125 of the source (`date` kept as the raw epoch value;
its conversion to a datetime object at line 121 is
representation-only and carries no content a claim touches). -/
structure LocRow where
  date : Int
  additions : Int
  deletions : Int
  delta : Int
  total_lines : Int
  deriving DecidableEq

/-- Running tail of `lines_of_code_changed`'s column arithmetic, with
`acc` the cumulative sum of `delta` over the rows already emitted.
Per input row `(date, additions, deletions)` the source computes, in
order: `deletions := deletions * -1` (line 123), `delta := additions -
deletions` with `deletions` now the negated column (line 124), and
`total_lines := delta.cumsum()` (line 125).  The pandas operations are
column-wise but row-independent except for `cumsum`, so this row-wise
scan is the same function. -/
def locScan (acc : Int) : List (Int × Int × Int) → List LocRow
  | [] => []
  | (d, a, del) :: rest =>
    let negDel := -del
    let delta := a - negDel
    let acc' := acc + delta
    ⟨d, a, negDel, delta, acc'⟩ :: locScan acc' rest

/-- Embeds `GitHubAPI.lines_of_code_changed` (lines 105-127) applied to
the parsed `code_frequency` rows `(unix date, additions, deletions)`. -/
def lines_of_code_changed (rows : List (Int × Int × Int)) : List LocRow :=
  locScan 0 rows

/-- Running cumulative sum of a list of integers (the semantics of
`pd.Series.cumsum()`). -/
def cumsum (acc : Int) : List Int → List Int
  | [] => []
  | x :: xs => (acc + x) :: cumsum (acc + x) xs

/-- One edge of the GraphQL commit-history response: its pagination
cursor and the commit author's email (the fields lines 224-228 read). -/
structure Edge where
  cursor : String
  email : String
  deriving DecidableEq

/-- One page of the GraphQL commit-history response: the
`pageInfo.hasNextPage` flag and the edge list. -/
structure GqlPage where
  hasNextPage : Bool
  edges : List Edge
  deriving DecidableEq

/-- The cursor fragment spliced into the next query at line 228 of the
source: `cursor = ", after: \"%s\"" % (commits[-1]['cursor'])`. -/
def mkAfter (c : String) : String := ", after: \"" ++ c ++ "\""

/-- The GraphQL query template of lines 194-219 up to the first `%s`
(the repository name). -/
def qPart1 : String :=
  "\n                        query\x7b\n                          repository(name: \""

/-- The template between the first `%s` (repo) and the second (owner). -/
def qPart2 : String := "\", owner: \""

/-- The template between the second `%s` (owner) and the third (the
cursor fragment spliced after `history(first: 100`). -/
def qPart3 : String :=
  "\") \x7b\n                            ref(qualifiedName: \"master\") \x7b\n                              target \x7b\n                                ... on Commit \x7b\n                                  id\n                                  history(first: 100"

/-- The template after the third `%s`, to the end of the string. -/
def qPart4 : String :=
  ") \x7b\n                                    pageInfo \x7b\n                                      hasNextPage\n                                    \x7d\n                                    edges \x7b\n                                      cursor\n                                      node \x7b\n                                        author \x7b\n                                          email\n                                        \x7d\n                                      \x7d\n                                    \x7d\n                                  \x7d\n                                \x7d\n                              \x7d\n                            \x7d\n                          \x7d\n                        \x7d\n                        "

/-- The full GraphQL query document built at lines 193-220:
the template with `%s` holes filled by `(repo, owner, cursor)`. -/
def mkQuery (repo owner cursor : String) : String :=
  qPart1 ++ repo ++ qPart2 ++ owner ++ qPart3 ++ cursor ++ qPart4

/-- Embeds the cursor-pagination `while hasNextPage` loop of
`GitHubAPI.bus_factor` (lines 187-228).  Per iteration, in source
order: build the query with the current cursor fragment (recorded in
the request trace), POST it (`resp k` models the response to the
`k`-th request), read `pageInfo.hasNextPage` and the edge list, append
each edge's author email, then set the cursor fragment from the last
edge's cursor — `commits[-1]` raises IndexError when the page has no
edges — and re-test `hasNextPage`.  Returns the trace of issued query
documents and the collected emails (or the Python fault). -/
def bfLoop (resp : Nat → GqlPage) (repo owner : String) :
    Nat → Nat → String → List String × Except PyError (List String)
  | 0, _, _ => ([], .error .outOfFuel)
  | fuel + 1, k, cursor =>
    let q := mkQuery repo owner cursor
    let p := resp k
    let emails := p.edges.map Edge.email
    match p.edges.getLast? with
    | none => ([q], .error .indexError)
    | some e =>
      if p.hasNextPage then
        let r := bfLoop resp repo owner fuel (k + 1) (mkAfter e.cursor)
        (q :: r.1, r.2.map (emails ++ ·))
      else ([q], .ok emails)

/-- Boolean lexicographic order on character lists. -/
def charListLe : List Char → List Char → Bool
  | [], _ => true
  | _ :: _, [] => false
  | a :: as, b :: bs => if a < b then true else if b < a then false else charListLe as bs

/-- Boolean lexicographic order on strings (pandas' sort order on the
email index; which order is used is irrelevant to the two scalar
outputs, which re-sort by value). -/
def strLeB (a b : String) : Bool := charListLe a.data b.data

/-- Boolean ascending order on rationals. -/
def qLeB (a b : Rat) : Bool := decide (a ≤ b)

/-- Boolean descending order on rationals. -/
def qGeB (a b : Rat) : Bool := decide (b ≤ a)

/-- Embeds line 235 of the source: per distinct email (pandas groups
sorted by key), its commit count divided by the sum of the counts,
times 100 — the percentage share column. -/
def shareList (emails : List String) : List Rat :=
  let keys := isort strLeB (uniq emails)
  let counts : List Rat := keys.map (fun e => (countEq e emails : Nat))
  let total := counts.sum
  counts.map (fun c => c / total * 100)

/-- Embeds the cumulative walk of lines 237-242 (and 244-249): iterate
over the running cumulative sums of `l`, incrementing the counter
before the test, and stop at the first sum `≥ t`; an empty series
leaves the counter at 0, and a series that never crosses `t` yields
its full length. -/
def crossGo (t acc : Rat) (i : Nat) : List Rat → Nat
  | [] => i
  | x :: xs => if t ≤ acc + x then i + 1 else crossGo t (acc + x) (i + 1) xs

/-- The cumulative-crossing count started from sum 0 and counter 0. -/
def crossCount (t : Rat) (l : List Rat) : Nat := crossGo t 0 0 l

/-- Embeds the aggregation of `bus_factor` (lines 231-253) on the
collected email list, with `t` the already-converted threshold
(line 191 divides the input threshold by 100 before the loop).  An
empty email list makes `pd.DataFrame([])` a frame with no columns, so
`df.email` at line 233 raises AttributeError (never the explicit
insufficient-data error the spec calls for); this branch is in fact
unreachable from `bus_factor` because an empty page already faults in
`bfLoop`.  Otherwise: percentage shares per email, walk the shares
sorted descending for `worst` and ascending for `best`. -/
def busAgg (t : Rat) (emails : List String) : Except PyError (Nat × Nat) :=
  match emails with
  | [] => .error .attrError
  | _ :: _ =>
    let sh := shareList emails
    .ok (crossCount t (isort qGeB sh), crossCount t (isort qLeB sh))

/-- Embeds `GitHubAPI.bus_factor` (lines 178-253): convert the
threshold percentage to a fraction (line 191), run the cursor-paginated
GraphQL fetch from request 0 with the empty cursor fragment, then
aggregate.  Returns the trace of issued query documents and the
`(worst, best)` pair (or the Python fault). -/
def bus_factor (resp : Nat → GqlPage) (owner repo : String) (threshold : Rat)
    (fuel : Nat) : List String × Except PyError (Nat × Nat) :=
  let t := threshold / 100
  let r := bfLoop resp repo owner fuel 0 ""
  (r.1, r.2.bind (busAgg t))

/-- One pull-request record as read at lines 277-279 of the source. -/
structure Pull where
  number : Nat
  state : String
  created_at : String
  deriving DecidableEq

/-- The names bound at module scope of `src/githubapi.py` (its imports
at lines 6-13 plus the class defined at line 17).  Python resolves a
bare name against the local then this global scope; a miss raises
NameError. -/
def moduleGlobals : List String :=
  ["json", "re", "pd", "Github", "requests", "LocalCSV", "logger", "annotate",
   "GitHubAPI"]

/-- Python name resolution against the module's global scope (for names
that are not local to the function being embedded). -/
def resolveGlobal (n : String) : Except PyError Unit :=
  if n ∈ moduleGlobals then .ok () else .error (.nameError n)

/-- Embeds `GitHubAPI.code_reviews` (lines 267-292).  Line 269 builds
`requests.get(url, auth=('user', key))`: `key` is local to no scope and
bound by no import, so evaluating the argument raises NameError before
any request is issued.  The rest of the body (kept here as it would
run with the names bound: project each pull request to
`(number, state, created_at)`, fetch its review list, record its
length, join) is dead code; line 289's `np.append` would likewise
raise NameError since `numpy` is never imported. -/
def code_reviews (pulls : List Pull) (reviews : Nat → List String)
    (owner repo : String) : Except PyError (List (Nat × String × String × Nat)) := do
  let _ ← resolveGlobal "key"
  let dicts := pulls.map (fun p => (p.number, p.state, p.created_at))
  let _ ← resolveGlobal "np"
  let counts := pulls.map (fun p => (reviews p.number).length)
  return dicts.zipWith (fun d c => (d.1, d.2.1, d.2.2, c)) counts

/-- Character-level worker for Python `str.split()`: scan the
characters, accumulating the current (reversed) non-whitespace run in
`cur` and emitting each maximal run as one token. -/
def pyTokensAux (cur : List Char) : List Char → List String
  | [] => if cur.isEmpty then [] else [⟨cur.reverse⟩]
  | c :: cs =>
    if c.isWhitespace then
      if cur.isEmpty then pyTokensAux [] cs
      else ⟨cur.reverse⟩ :: pyTokensAux [] cs
    else pyTokensAux (c :: cur) cs

/-- Python `str.split()` with no separator: the maximal whitespace-free
runs of the string, in order (no empty pieces). -/
def pyTokens (s : String) : List String := pyTokensAux [] s.data

/-- Embeds the name-collection loop of `contributors_gender`
(lines 259-263): contributors whose display name is `None` are passed
over; each other contributor appends `name.split()[0]`, where indexing
`[0]` raises IndexError when `split()` of an empty or all-whitespace
name yields no tokens. -/
def buildNames : List (Option String) → Except PyError (List String)
  | [] => .ok []
  | none :: rest => buildNames rest
  | some s :: rest =>
    match pyTokens s with
    | [] => .error .indexError
    | t :: _ => (buildNames rest).map (t :: ·)

/-- The pandas inner merge on the `name` column at line 264: left rows
in order, each paired with every matching reference row in reference
order, producing `(name, gender)` rows; names absent from the
reference table are dropped. -/
def innerJoin (names : List String) (ref : List (String × String)) :
    List (String × String) :=
  names.flatMap (fun n => (ref.filter (fun r => decide (r.1 = n))).map (fun r => (n, r.2)))

/-- Embeds `GitHubAPI.contributors_gender` (lines 256-265).
`cs` models the fetched contributors' display names (`contributor.name`,
`None` when unset); `ref` models the external `LocalCSV.name_gender`
reference table as `(first name, gender)` rows. -/
def contributors_gender (cs : List (Option String)) (ref : List (String × String)) :
    Except PyError (List (String × String)) := do
  let names ← buildNames cs
  return innerJoin names ref

/-! Helper lemmas. -/

/-- The character data of an appended string is the appended data. -/
theorem str_data_append (a b : String) : (a ++ b).data = a.data ++ b.data := rfl

/-- Column lemma: the `deletions` column of `locScan` is the negated
input deletions, whatever the running total. -/
theorem locScan_deletions (rows : List (Int × Int × Int)) :
    ∀ acc, (locScan acc rows).map LocRow.deletions = rows.map (fun r => -r.2.2) := by
  induction rows with
  | nil => intro acc; rfl
  | cons r rest ih =>
    intro acc
    obtain ⟨d, a, del⟩ := r
    simp [locScan, ih]

/-- Column lemma: the `delta` column of `locScan` is `additions` minus
the negated deletions, i.e. `additions` plus the raw input deletions. -/
theorem locScan_delta (rows : List (Int × Int × Int)) :
    ∀ acc, (locScan acc rows).map LocRow.delta = rows.map (fun r => r.2.1 + r.2.2) := by
  induction rows with
  | nil => intro acc; rfl
  | cons r rest ih =>
    intro acc
    obtain ⟨d, a, del⟩ := r
    simp [locScan, ih, sub_neg_eq_add]

/-- Column lemma: the `total_lines` column of `locScan` is the running
cumulative sum of its `delta` column, started from the accumulator. -/
theorem locScan_total (rows : List (Int × Int × Int)) :
    ∀ acc, (locScan acc rows).map LocRow.total_lines =
      cumsum acc ((locScan acc rows).map LocRow.delta) := by
  induction rows with
  | nil => intro acc; rfl
  | cons r rest ih =>
    intro acc
    obtain ⟨d, a, del⟩ := r
    simp [locScan, cumsum, ih]

/-! Claim theorems. -/

/-- C2 (counterexample): on the claim's literal input
`additions/deletions = [(10,4),(5,1)]` the `delta` column is `[14, 6]`,
not the claimed `[6, 4]`: line 123 negates the deletions column before
line 124 computes `delta = additions - deletions`, so `delta` is
`additions` plus the raw input deletions.  The claimed figures arise
only for the API's sign convention, where deletions arrive negative. -/
theorem lines_of_code_changed_literal_input :
    ¬ ((lines_of_code_changed [(0, 10, 4), (0, 5, 1)]).map LocRow.delta = [6, 4] ∧
       (lines_of_code_changed [(0, 10, 4), (0, 5, 1)]).map LocRow.total_lines = [6, 10]) := by
  decide

/-- C2 (amended): `lines_of_code_changed` negates the deletions column;
each row's `delta` equals `additions` minus the *negated* deletions
(i.e. `additions` plus the raw input deletions, which the
`code_frequency` API reports as negative numbers); `total_lines` is
the running cumulative sum of `delta` in returned order.  In
particular, for API-convention input `[(10,-4),(5,-1)]` the deltas are
`[6, 4]` and `total_lines` is `[6, 10]`. -/
theorem lines_of_code_changed_columns (rows : List (Int × Int × Int)) :
    (lines_of_code_changed rows).map LocRow.deletions = rows.map (fun r => -r.2.2) ∧
    (lines_of_code_changed rows).map LocRow.delta = rows.map (fun r => r.2.1 + r.2.2) ∧
    (lines_of_code_changed rows).map LocRow.total_lines =
      cumsum 0 ((lines_of_code_changed rows).map LocRow.delta) ∧
    (lines_of_code_changed [(0, 10, -4), (0, 5, -1)]).map LocRow.delta = [6, 4] ∧
    (lines_of_code_changed [(0, 10, -4), (0, 5, -1)]).map LocRow.total_lines = [6, 10] := by
  refine ⟨locScan_deletions rows 0, locScan_delta rows 0, locScan_total rows 0, by decide, by decide⟩

/-- Trace of the offset loop from an arbitrary start page: if the `m`
pages starting at page `i` are non-empty and page `i+m` is empty, the
loop requests exactly pages `i, i+1, …, i+m` and returns the
concatenation of the non-empty ones. -/
theorem ccLoop_spec {α : Type} (pages : Nat → List α) :
    ∀ (m i fuel : Nat), (∀ k, k < m → pages (i + k) ≠ []) → pages (i + m) = [] →
      m < fuel →
      ccLoop pages fuel i =
        ((List.range (m + 1)).map (i + ·),
          some ((List.range m).flatMap (fun k => pages (i + k)))) := by
  intro m
  induction m with
  | zero =>
    intro i fuel _ hend hfuel
    obtain ⟨f, rfl⟩ : ∃ f, fuel = f + 1 :=
      ⟨fuel - 1, (Nat.succ_pred_eq_of_pos hfuel).symm⟩
    have h0 : pages i = [] := by simpa using hend
    have hr1 : List.range 1 = [0] := rfl
    simp [ccLoop, h0, hr1]
  | succ m ih =>
    intro i fuel hne hend hfuel
    obtain ⟨f, rfl⟩ : ∃ f, fuel = f + 1 :=
      ⟨fuel - 1, (Nat.succ_pred_eq_of_pos (Nat.lt_of_le_of_lt (Nat.zero_le _) hfuel)).symm⟩
    have h0 : pages i ≠ [] := by simpa using hne 0 (Nat.succ_pos m)
    have hrec := ih (i + 1) f
      (fun k hk => by
        have hk1 := hne (k + 1) (Nat.succ_lt_succ hk)
        have : i + (k + 1) = i + 1 + k := by omega
        rwa [this] at hk1)
      (by
        have : i + (m + 1) = i + 1 + m := by omega
        rwa [this] at hend)
      (Nat.lt_of_succ_lt_succ hfuel)
    have hemp : (pages i).isEmpty = false := by
      cases hp : pages i with
      | nil => exact absurd hp h0
      | cons a l => rfl
    have hrange1 : (List.range (m + 1 + 1)).map (i + ·) =
        i :: (List.range (m + 1)).map (i + 1 + ·) := by
      rw [List.range_succ_eq_map]
      simp only [List.map_cons, List.map_map, Nat.add_zero]
      refine congrArg (i :: ·) (List.map_congr_left (fun k _ => ?_))
      simp [Function.comp]
      omega
    have hflat : (List.range (m + 1)).flatMap (fun k => pages (i + k)) =
        pages i ++ (List.range m).flatMap (fun k => pages (i + 1 + k)) := by
      rw [List.range_succ_eq_map]
      simp only [List.flatMap_cons, List.flatMap_map, Nat.add_zero]
      refine congrArg (pages i ++ ·) (List.flatMap_congr (fun k _ => ?_))
      simp [Function.comp]
      have : i + (k + 1) = i + 1 + k := by omega
      rw [this]
    simp only [ccLoop, hemp, Bool.false_eq_true, if_false, hrec, hrange1, hflat]
    simp

/-- C4: for every synthetic paginated response of `N` pages whose first
`N-1` pages are non-empty and whose `N`-th page is empty, the
offset-paginated fetcher of `code_commits` requests exactly the pages
`0, 1, …, N-1` (starting at 0, incrementing by 1 — `N` requests in
all, stopping the first time a requested page returns zero records)
and returns exactly the concatenation of the `N-1` non-empty pages. -/
theorem code_commits_offset_pagination {α : Type} (pages : Nat → List α)
    (N fuel : Nat) (hN : 0 < N) (hne : ∀ i, i < N - 1 → pages i ≠ [])
    (hend : pages (N - 1) = []) (hfuel : N ≤ fuel) :
    code_commits_fetch pages fuel =
      (List.range N, some ((List.range (N - 1)).flatMap pages)) := by
  have h := ccLoop_spec pages (N - 1) 0 fuel
    (fun k hk => by simpa using hne k hk)
    (by simpa using hend)
    (by omega)
  have hN1 : N - 1 + 1 = N := by omega
  rw [code_commits_fetch, h, hN1]
  have h1 : List.map (fun x => 0 + x) (List.range N) = List.range N := by simp
  have h2 : (List.range (N - 1)).flatMap (fun k => pages (0 + k)) =
      (List.range (N - 1)).flatMap pages :=
    List.flatMap_congr (fun k _ => by simp)
  rw [h1, h2]

/-- Concrete three-page remote for the offset-pagination witness:
pages 0 and 1 non-empty, page 2 empty. -/
def w4pages : Nat → List Nat := fun i =>
  if i = 0 then [10] else if i = 1 then [20, 30] else []

/-- C4 witness: the offset fetcher at `N = 3`. -/
theorem code_commits_offset_pagination_witness :
    code_commits_fetch w4pages 3 =
      (List.range 3, some ((List.range 2).flatMap w4pages)) :=
  code_commits_offset_pagination w4pages 3 3 (by decide)
    (by decide) (by decide) (by decide)

/-- C6: for the link-header fetcher of `open_issues`, given a chain of
three synthetic pages where only the first two responses carry a
`next` link, exactly three requests are issued — the first to the
state=all issues URL, each subsequent one to the URL supplied by the
previous response's link metadata — and all returned items are
concatenated in order. -/
theorem open_issues_link_pagination {α : Type}
    (resp : String → List α × Option String) (owner repo u1 u2 : String)
    (xs0 xs1 xs2 : List α) (n : Nat)
    (h0 : resp (openIssuesUrl owner repo) = (xs0, some u1))
    (h1 : resp u1 = (xs1, some u2))
    (h2 : resp u2 = (xs2, none)) :
    linkLoop resp (n + 3) (openIssuesUrl owner repo) =
      ([openIssuesUrl owner repo, u1, u2], some (xs0 ++ xs1 ++ xs2)) := by
  have e2 : linkLoop resp (n + 1) u2 = ([u2], some xs2) := by
    simp [linkLoop, h2]
  have e1 : linkLoop resp (n + 2) u1 = ([u1, u2], some (xs1 ++ xs2)) := by
    have : n + 2 = (n + 1) + 1 := rfl
    rw [this, linkLoop, h1]
    simp [e2]
  have : n + 3 = (n + 2) + 1 := rfl
  rw [this, linkLoop, h0]
  simp [e1]

/-- Concrete three-page chain for the link-header witness. -/
def w6resp : String → List Nat × Option String := fun u =>
  if u = openIssuesUrl "o" "r" then ([1], some "page2")
  else if u = "page2" then ([2], some "page3")
  else ([3], none)

/-- C6 witness: the link-header fetcher on the three-page chain. -/
theorem open_issues_link_pagination_witness :
    linkLoop w6resp 3 (openIssuesUrl "o" "r") =
      ([openIssuesUrl "o" "r", "page2", "page3"], some ([1] ++ [2] ++ [3])) :=
  open_issues_link_pagination w6resp "o" "r" "page2" "page3" [1] [2] [3] 0
    (by decide) (by decide) (by decide)

/-- Two events on the same day, whatever their times of day, group to
the single row `(midnight of that day, 2)`. -/
theorem dailyCounts_pair (d : Int) (t1 t2 : Nat) :
    dailyCounts [⟨d, t1⟩, ⟨d, t2⟩] = [(⟨d, 0⟩, 2)] := by
  simp [dailyCounts, dtNormalize, uniq, isort, insertLe, countEq]

/-- C7: the date-grouping time-series metrics (`closed_issues`,
`code_commits`, `open_issues`) truncate time-of-day before grouping:
two events with timestamps on the same calendar day `d` — whatever
their times of day `t1`, `t2` — merge into the single output row
`(d at midnight, 2)`. -/
theorem date_normalization (owner repo : String) (d : Int) (t1 t2 : Nat) :
    (closed_issues (fun _ => [⟨d, t1⟩, ⟨d, t2⟩]) owner repo).2 = [(⟨d, 0⟩, 2)] ∧
    (code_commits (fun i => if i = 0 then [⟨d, t1⟩, ⟨d, t2⟩] else []) 2).2 =
      some [(⟨d, 0⟩, 2)] ∧
    (open_issues (fun _ => ([⟨d, t1⟩, ⟨d, t2⟩], none)) owner repo 1).2 =
      some [(⟨d, 0⟩, 2)] := by
  refine ⟨?_, ?_, ?_⟩
  · simp [closed_issues, dailyCounts_pair]
  · have h2 : (2 : Nat) = 1 + 1 := rfl
    simp only [code_commits, code_commits_fetch, h2, ccLoop]
    simp [dailyCounts_pair]
  · simp [open_issues, linkLoop, dailyCounts_pair]

/-- C9: `closed_issues` and `contributors` each issue exactly one HTTP
GET (to their fixed URL) and parse that single body into a table with
a fixed column projection; the result depends only on that one
response — no pagination — so anything beyond the API's single default
page is silently truncated. -/
theorem single_shot_fetchers (owner repo : String)
    (respA respA' : String → List PyTimestamp)
    (respB respB' : String → List RawContributor)
    (hA : respA (closedIssuesUrl owner repo) = respA' (closedIssuesUrl owner repo))
    (hB : respB (contributorsUrl owner repo) = respB' (contributorsUrl owner repo)) :
    (closed_issues respA owner repo).1 = [closedIssuesUrl owner repo] ∧
    (contributors respB owner repo).1 = [contributorsUrl owner repo] ∧
    closed_issues respA owner repo = closed_issues respA' owner repo ∧
    contributors respB owner repo = contributors respB' owner repo ∧
    (closed_issues respA owner repo).2 =
      dailyCounts (respA (closedIssuesUrl owner repo)) ∧
    (contributors respB owner repo).2 =
      (respB (contributorsUrl owner repo)).map (fun c => (c.login, c.contributions)) := by
  exact ⟨rfl, rfl, by simp [closed_issues, hA], by simp [contributors, hB], rfl, rfl⟩

/-- Concrete single-page issue response for the single-shot witness. -/
def w9issues : String → List PyTimestamp := fun _ => [⟨7, 100⟩]

/-- Concrete contributor response for the single-shot witness. -/
def w9contribs : String → List RawContributor := fun _ => [⟨"alice", 3⟩]

/-- C9 witness: the single-shot contract at a concrete remote. -/
theorem single_shot_fetchers_witness :
    (closed_issues w9issues "o" "r").1 = [closedIssuesUrl "o" "r"] ∧
    (contributors w9contribs "o" "r").1 = [contributorsUrl "o" "r"] ∧
    closed_issues w9issues "o" "r" = closed_issues w9issues "o" "r" ∧
    contributors w9contribs "o" "r" = contributors w9contribs "o" "r" ∧
    (closed_issues w9issues "o" "r").2 =
      dailyCounts (w9issues (closedIssuesUrl "o" "r")) ∧
    (contributors w9contribs "o" "r").2 =
      (w9contribs (contributorsUrl "o" "r")).map (fun c => (c.login, c.contributions)) :=
  single_shot_fetchers "o" "r" w9issues w9issues w9contribs w9contribs rfl rfl

/-- C5: for the cursor-paginated GraphQL fetcher in `bus_factor`, given
two synthetic pages where the first has `hasNextPage = true` and edges
carrying cursors and the second has `hasNextPage = false`, exactly two
requests are issued — iteration stops when `hasNextPage` is false —
and the second request's query document is the template with its
`after:` argument set to the last edge's cursor of the first response
(that `after:` fragment occurring verbatim inside the query text). -/
theorem bus_factor_cursor_pagination (resp : Nat → GqlPage)
    (repo owner : String) (t : Rat) (n : Nat) (e1 e2 : Edge)
    (h0 : (resp 0).hasNextPage = true)
    (hl0 : (resp 0).edges.getLast? = some e1)
    (h1 : (resp 1).hasNextPage = false)
    (hl1 : (resp 1).edges.getLast? = some e2) :
    (bus_factor resp owner repo t (n + 2)).1 =
      [mkQuery repo owner "", mkQuery repo owner (mkAfter e1.cursor)] ∧
    (mkAfter e1.cursor).data <:+: (mkQuery repo owner (mkAfter e1.cursor)).data := by
  constructor
  · have e2nd : bfLoop resp repo owner (n + 1) 1 (mkAfter e1.cursor) =
        ([mkQuery repo owner (mkAfter e1.cursor)], .ok ((resp 1).edges.map Edge.email)) := by
      rw [bfLoop, hl1]
      simp [h1]
    rw [bus_factor]
    show (bfLoop resp repo owner (n + 2) 0 "").1 = _
    rw [bfLoop, hl0]
    simp [h0, e2nd]
  · refine ⟨(qPart1 ++ repo ++ qPart2 ++ owner ++ qPart3).data, qPart4.data, ?_⟩
    simp [mkQuery, str_data_append, List.append_assoc]

/-- Concrete two-page GraphQL remote for the cursor-pagination
witness: page 0 has another page and one edge with cursor `c1`,
page 1 is final. -/
def w5resp : Nat → GqlPage := fun k =>
  if k = 0 then ⟨true, [⟨"c1", "a"⟩]⟩ else ⟨false, [⟨"c2", "b"⟩]⟩

/-- C5 witness: the cursor fetcher on the concrete two-page remote. -/
theorem bus_factor_cursor_pagination_witness :
    (bus_factor w5resp "o" "r" 50 2).1 =
      [mkQuery "r" "o" "", mkQuery "r" "o" (mkAfter "c1")] ∧
    (mkAfter "c1").data <:+: (mkQuery "r" "o" (mkAfter "c1")).data :=
  bus_factor_cursor_pagination w5resp "r" "o" 50 0 ⟨"c1", "a"⟩ ⟨"c2", "b"⟩
    rfl rfl rfl rfl

/-- The commit history behind the spec's worked bus-factor example:
one final page whose five edges carry author emails
`a, a, a, b, c` (shares 60%, 20%, 20%). -/
def busFactorFiveEmails : Nat → GqlPage := fun _ =>
  ⟨false, [⟨"c1", "a"⟩, ⟨"c2", "a"⟩, ⟨"c3", "a"⟩, ⟨"c4", "b"⟩, ⟨"c5", "c"⟩]⟩

/-- C1: evaluating `bus_factor` on the claim's own example — emails
`[a,a,a,b,c]`, threshold 50 — yields `worst = 1` and `best = 1`, not
the claimed `best = 3`: line 191 converts the threshold to the
fraction `0.5`, but line 235 builds *percentage* shares (`× 100`), so
the cumulative walks of lines 238-249 compare percentages against a
fraction and every positive leading share crosses it immediately. -/
theorem bus_factor_threshold_unit_mismatch :
    (bus_factor busFactorFiveEmails "o" "r" 50 1).2 = .ok (1, 1) ∧
    (bus_factor busFactorFiveEmails "o" "r" 50 1).2 ≠ .ok (1, 3) := by
  have h : (bus_factor busFactorFiveEmails "o" "r" 50 1).2 = .ok (1, 1) := by
    with_unfolding_all rfl
  exact ⟨h, by rw [h]; decide⟩

/-- C3: on an empty commit history (a single GraphQL page with
`hasNextPage = false` and no edges) `bus_factor` does not raise an
explicit insufficient-data error: it stops with the unhandled
IndexError from `commits[-1]` at line 228, whatever fuel beyond the
one consumed request is available. -/
theorem bus_factor_empty_history (n : Nat) :
    (bus_factor (fun _ => ⟨false, []⟩) "o" "r" 50 (n + 1)).2 = .error .indexError ∧
    (bus_factor (fun _ => ⟨false, []⟩) "o" "r" 50 (n + 1)).2 ≠
      .error .insufficientData := by
  have h : (bus_factor (fun _ => ⟨false, []⟩) "o" "r" 50 (n + 1)).2 =
      .error .indexError := by
    simp [bus_factor, bfLoop, Except.bind]
  exact ⟨h, by rw [h]; decide⟩

/-- C8: `code_reviews` never reaches its fetch-and-join logic: for
every pull-request list, review table and owner/repo pair it raises
`NameError` for the unbound name `key` used in the very first
statement's `auth` argument (line 269; `np` at line 289 is equally
unbound), so no review list is fetched and no join is returned. -/
theorem code_reviews_name_error (pulls : List Pull) (reviews : Nat → List String)
    (owner repo : String) :
    code_reviews pulls reviews owner repo = .error (.nameError "key") := rfl

/-- C10 (counterexample): a contributor whose display name is the
non-`None` empty string defeats the claim — `name.split()[0]` at
line 262 raises IndexError instead of contributing a token to the
join (or being skipped). -/
theorem contributors_gender_empty_name :
    contributors_gender [some ""] [("Jane", "female")] = .error .indexError := by
  decide

/-- The first whitespace-separated token of a name (total version used
to state what the join receives; under the theorem's hypothesis the
token list is non-empty, so the default is never taken). -/
def firstToken (s : String) : String := (pyTokens s).headD ""

/-- The name-collection loop succeeds and yields exactly the first
tokens of the non-`None` names, provided every non-`None` name has at
least one token. -/
theorem buildNames_ok (cs : List (Option String))
    (h : ∀ s, some s ∈ cs → pyTokens s ≠ []) :
    buildNames cs = .ok ((cs.filterMap id).map firstToken) := by
  induction cs with
  | nil => rfl
  | cons c rest ih =>
    have hrest : ∀ s, some s ∈ rest → pyTokens s ≠ [] :=
      fun s hs => h s (List.mem_cons_of_mem c hs)
    cases c with
    | none => simpa [buildNames] using ih hrest
    | some s =>
      have hs : pyTokens s ≠ [] := h s (List.mem_cons_self _ _)
      cases hts : pyTokens s with
      | nil => exact absurd hts hs
      | cons t ts =>
        simp [buildNames, hts, ih hrest, firstToken, Except.map]

/-- C10 (amended): contributors whose display name is `None` are
silently skipped — they appear in no output row and cause no error —
and, provided every non-`None` name contains at least one
whitespace-separated token, each non-`None` name contributes exactly
its first token to the inner join against the name→gender reference
table.  (The proviso is forced by the counterexample: a non-`None`
name with no tokens raises IndexError instead.) -/
theorem contributors_gender_skips_none (cs : List (Option String))
    (ref : List (String × String))
    (h : ∀ s, some s ∈ cs → pyTokens s ≠ []) :
    contributors_gender cs ref =
      .ok (innerJoin ((cs.filterMap id).map firstToken) ref) := by
  simp [contributors_gender, buildNames_ok cs h, Except.bind]

/-- C10 witness: a `None`-named contributor, a reference-table hit
(`"Jane Doe"` → token `Jane`) and a reference-table miss
(`"Xyzzy Unknown"`): the `None` is skipped, the miss is dropped by the
join, the hit is returned with its gender. -/
theorem contributors_gender_skips_none_witness :
    contributors_gender [none, some "Jane Doe", some "Xyzzy Unknown"]
      [("Jane", "female")] = .ok [("Jane", "female")] := by
  have h := contributors_gender_skips_none
    [none, some "Jane Doe", some "Xyzzy Unknown"] [("Jane", "female")]
    (by
      intro s hs
      simp only [List.mem_cons, List.not_mem_nil, or_false,
        reduceCtorEq, false_or, Option.some.injEq] at hs
      rcases hs with rfl | rfl <;> decide)
  rw [h]
  decide
